import Mathlib

/-!
# Verification of the `gitty` interactive git front-end

A shallow embedding of the gitty terminal UI (menu controller, sub-flow
state machines, git status parsing, config loading) together with proofs
about the embedded operations.

Conventions used throughout:
* Go strings are modelled as Lean `String` (a wrapper around `List Char`);
  the character-level Go library functions (`strings.TrimSpace`,
  `strings.Split`, `strings.SplitN`) are implemented on `List Char` and
  lifted.
* External processes (git, gh, the HTTP client, the `huh` form widgets and
  the bubbles text inputs) are modelled as oracle parameters: a function
  supplied to the transition function that stands for the third-party
  component's own step function or for the external command's outcome.
* A bubbletea `tea.Cmd` is modelled as the inductive `Cmd` of effect
  descriptions; a `tea.Msg` as the inductive `Msg` covering every message
  type the program defines.
-/

namespace Gitty

/-! ## Go string primitives (character-list level) -/

/-- One Go string as a list of characters. -/
abbrev GoStr := List Char

/-- Go's `unicode.IsSpace` (the White_Space property). -/
def goIsSpace (c : Char) : Bool :=
  c = ' ' ∨ c = '\t' ∨ c = '\n' ∨ c = '\x0b' ∨ c = '\x0c' ∨ c = '\r' ∨
  c = '\x85' ∨ c = '\xa0' ∨ c = ' ' ∨
  (0x2000 ≤ c.toNat ∧ c.toNat ≤ 0x200a) ∨
  c = ' ' ∨ c = ' ' ∨ c = ' ' ∨ c = ' ' ∨ c = '　'

/-- `strings.TrimSpace` on character lists: drop White_Space from both ends. -/
def goTrimSpace (s : GoStr) : GoStr :=
  ((s.dropWhile goIsSpace).reverse.dropWhile goIsSpace).reverse

/-- Split a Go string at the first occurrence of `sep`: `none` when `sep`
does not occur, otherwise the part before and the part after the first
occurrence (Go `strings.Index` plus slicing; `sep` is nonempty in every
use below). -/
def breakOn (sep : GoStr) : GoStr → Option (GoStr × GoStr)
  | [] => none
  | c :: rest =>
    if sep.isPrefixOf (c :: rest) then some ([], (c :: rest).drop sep.length)
    else
      match breakOn sep rest with
      | some (pre, post) => some (c :: pre, post)
      | none => none

/-- `strings.Split(s, sep)[0]`: everything before the first occurrence of
`sep`, or all of `s` when `sep` does not occur. -/
def goSplitFirst (sep s : GoStr) : GoStr :=
  match breakOn sep s with
  | none => s
  | some (a, _) => a

/-- `strings.SplitN(s, sep, 2)`. -/
def goSplitN2 (sep s : GoStr) : List GoStr :=
  match breakOn sep s with
  | none => [s]
  | some (a, b) => [a, b]

/-- `strings.Split(s, string(c))` for a one-character separator (the only
full-split form the program uses, on `"\n"`). -/
def splitOnChar (c : Char) : GoStr → List GoStr
  | [] => [[]]
  | a :: rest =>
    if a = c then [] :: splitOnChar c rest
    else
      match splitOnChar c rest with
      | [] => [[a]]
      | h :: t => (a :: h) :: t

/-- `strings.TrimSpace` lifted to `String`. -/
def goTrimSpaceS (s : String) : String := ⟨goTrimSpace s.data⟩

lemma dropWhile_eq_cons_not (p : Char → Bool) (l : GoStr) (c : Char) (cs : GoStr)
    (h : l.dropWhile p = c :: cs) : p c = false := by
  induction l with
  | nil => simp at h
  | cons a l ih =>
    by_cases ha : p a
    · exact ih (by simpa [List.dropWhile, ha] using h)
    · simp only [List.dropWhile, ha, Bool.false_eq_true, if_neg] at h
      simp only [List.cons.injEq] at h
      rw [← h.1]
      simpa using ha

lemma goTrimSpace_head_not_space (s : GoStr) (c : Char) (cs : GoStr)
    (h : goTrimSpace s = c :: cs) : goIsSpace c = false := by
  unfold goTrimSpace at h
  set y := s.dropWhile goIsSpace with hy
  have hpre : ((y.reverse.dropWhile goIsSpace).reverse : GoStr) <+: y := by
    have hsuf : (y.reverse.dropWhile goIsSpace : GoStr) <:+ y.reverse :=
      List.dropWhile_suffix goIsSpace
    have := List.reverse_prefix.mpr hsuf
    simpa using this
  rw [h] at hpre
  obtain ⟨t, ht⟩ := hpre
  exact dropWhile_eq_cons_not goIsSpace s c (cs ++ t) (by rw [← hy, ← ht]; simp)

lemma goTrimSpace_getLast?_not_space (s : GoStr) (c : Char)
    (h : (goTrimSpace s).getLast? = some c) : goIsSpace c = false := by
  unfold goTrimSpace at h
  rw [List.getLast?_reverse] at h
  cases hcons : (s.dropWhile goIsSpace).reverse.dropWhile goIsSpace with
  | nil => rw [hcons] at h; simp at h
  | cons a as =>
    rw [hcons] at h
    simp only [List.head?_cons, Option.some.injEq] at h
    rw [← h]
    exact dropWhile_eq_cons_not goIsSpace (s.dropWhile goIsSpace).reverse a as hcons

lemma goTrimSpace_head?_not_space (s : GoStr) (c : Char)
    (h : (goTrimSpace s).head? = some c) : goIsSpace c = false := by
  cases hcons : goTrimSpace s with
  | nil => rw [hcons] at h; simp at h
  | cons a as =>
    rw [hcons] at h
    simp only [List.head?_cons, Option.some.injEq] at h
    rw [← h]
    exact goTrimSpace_head_not_space s a as hcons

lemma breakOn_nl (t r : GoStr) (ht : '\n' ∉ t) :
    breakOn ['\n'] (t ++ '\n' :: r) = some (t, r) := by
  induction t with
  | nil => simp [breakOn, List.isPrefixOf]
  | cons c t ih =>
    have hc : c ≠ '\n' := fun h => ht (h ▸ List.mem_cons_self c t)
    have ht' : '\n' ∉ t := fun h => ht (List.mem_cons_of_mem c h)
    have hp : (['\n'] : GoStr).isPrefixOf (c :: (t ++ '\n' :: r)) = false := by
      simp [List.isPrefixOf]
      exact fun h => hc h.symm
    simp [breakOn, hp, ih ht']

lemma breakOn_nl2 (t b : GoStr) (ht : '\n' ∉ t) :
    breakOn ['\n', '\n'] (t ++ '\n' :: '\n' :: b) = some (t, b) := by
  induction t with
  | nil => simp [breakOn, List.isPrefixOf]
  | cons c t ih =>
    have hc : c ≠ '\n' := fun h => ht (h ▸ List.mem_cons_self c t)
    have ht' : '\n' ∉ t := fun h => ht (List.mem_cons_of_mem c h)
    have hp : (['\n', '\n'] : GoStr).isPrefixOf (c :: (t ++ '\n' :: '\n' :: b)) = false := by
      simp [List.isPrefixOf]
      exact fun h => absurd h.symm hc
    simp [breakOn, hp, ih ht']

lemma goSplitFirst_compose (t b : GoStr) (ht : '\n' ∉ t) :
    goSplitFirst ['\n'] (t ++ '\n' :: '\n' :: b) = t := by
  unfold goSplitFirst
  rw [breakOn_nl t ('\n' :: b) ht]

lemma goSplitN2_compose (t b : GoStr) (ht : '\n' ∉ t) :
    goSplitN2 ['\n', '\n'] (t ++ '\n' :: '\n' :: b) = [t, b] := by
  unfold goSplitN2
  rw [breakOn_nl2 t b ht]

lemma string_data_append (s t : String) : (s ++ t).data = s.data ++ t.data := rfl

/-! ## Repository status (src/internal/git/git.go) -/

/-- `git.Status` (git.go lines 12-24). `Ahead`/`Behind` and the identity
fields are filled from separate git invocations and are carried along
unchanged by the porcelain loop. -/
structure Status where
  isRepo : Bool
  branch : String
  hasStaged : Bool
  hasUnstaged : Bool
  hasUntracked : Bool
  ahead : Nat
  behind : Nat
  stagedFiles : List String
  modifiedFiles : List String
  untrackedFiles : List String
  remoteURL : String
deriving DecidableEq, Repr

/-- The zero `Status{}` literal `GetStatus` starts from. -/
def emptyStatus : Status :=
  { isRepo := false, branch := "", hasStaged := false, hasUnstaged := false
  , hasUntracked := false, ahead := 0, behind := 0, stagedFiles := []
  , modifiedFiles := [], untrackedFiles := [], remoteURL := "" }

/-- One iteration of the porcelain loop in `GetStatus` (git.go lines
54-79): records shorter than three characters are skipped; otherwise
`x := line[0]`, `y := line[1]`, `file := strings.TrimSpace(line[3:])`,
and the three classification tests run in order. -/
def processStatusLine (st : Status) (line : GoStr) : Status :=
  match line with
  | x :: y :: _ :: rest =>
    let file : String := ⟨goTrimSpace rest⟩
    let st1 := if x ≠ ' ' ∧ x ≠ '?' then
      { st with hasStaged := true, stagedFiles := st.stagedFiles ++ [file] }
      else st
    let st2 := if y ≠ ' ' ∧ y ≠ '?' then
      { st1 with hasUnstaged := true, modifiedFiles := st1.modifiedFiles ++ [file] }
      else st1
    if x = '?' ∧ y = '?' then
      { st2 with hasUntracked := true, untrackedFiles := st2.untrackedFiles ++ [file] }
      else st2
  | _ => st

/-- The whole porcelain loop of `GetStatus` (git.go lines 53-79): split the
command output on newlines and fold the per-record classification. -/
def processPorcelain (out : String) : Status :=
  (splitOnChar '\n' out.data).foldl processStatusLine emptyStatus

lemma processStatusLine_hasStaged (st : Status) (x y z : Char) (rest : GoStr) :
    (processStatusLine st (x :: y :: z :: rest)).hasStaged
      = (st.hasStaged || decide (x ≠ ' ' ∧ x ≠ '?')) := by
  by_cases hx : x ≠ ' ' ∧ x ≠ '?' <;>
    by_cases hy : y ≠ ' ' ∧ y ≠ '?' <;>
      by_cases hu : x = '?' ∧ y = '?' <;>
        simp [processStatusLine, hx, hy, hu]

lemma processStatusLine_hasUnstaged (st : Status) (x y z : Char) (rest : GoStr) :
    (processStatusLine st (x :: y :: z :: rest)).hasUnstaged
      = (st.hasUnstaged || decide (y ≠ ' ' ∧ y ≠ '?')) := by
  by_cases hx : x ≠ ' ' ∧ x ≠ '?' <;>
    by_cases hy : y ≠ ' ' ∧ y ≠ '?' <;>
      by_cases hu : x = '?' ∧ y = '?' <;>
        simp [processStatusLine, hx, hy, hu]

lemma processStatusLine_hasUntracked (st : Status) (x y z : Char) (rest : GoStr) :
    (processStatusLine st (x :: y :: z :: rest)).hasUntracked
      = (st.hasUntracked || decide (x = '?' ∧ y = '?')) := by
  by_cases hx : x ≠ ' ' ∧ x ≠ '?' <;>
    by_cases hy : y ≠ ' ' ∧ y ≠ '?' <;>
      by_cases hu : x = '?' ∧ y = '?' <;>
        simp [processStatusLine, hx, hy, hu]

/-- Claim C5: for every porcelain status record with index-state character
`x` and worktree-state character `y`, the record is classified staged iff
`x` is neither space nor `?`, modified iff `y` is neither space nor `?`,
and untracked (and then only untracked) iff both are `?`; a record can be
both staged and modified at once. -/
theorem porcelain_classification :
    (∀ (x y : Char) (rest : GoStr),
      ((processStatusLine emptyStatus (x :: y :: ' ' :: rest)).hasStaged = true
          ↔ (x ≠ ' ' ∧ x ≠ '?'))
      ∧ ((processStatusLine emptyStatus (x :: y :: ' ' :: rest)).hasUnstaged = true
          ↔ (y ≠ ' ' ∧ y ≠ '?'))
      ∧ ((processStatusLine emptyStatus (x :: y :: ' ' :: rest)).hasUntracked = true
          ↔ (x = '?' ∧ y = '?'))
      ∧ ((processStatusLine emptyStatus (x :: y :: ' ' :: rest)).hasUntracked = true
          → (processStatusLine emptyStatus (x :: y :: ' ' :: rest)).hasStaged = false
            ∧ (processStatusLine emptyStatus (x :: y :: ' ' :: rest)).hasUnstaged = false))
    ∧ ((processPorcelain "MM f").hasStaged = true
        ∧ (processPorcelain "MM f").hasUnstaged = true
        ∧ (processPorcelain "MM f").hasUntracked = false) := by
  constructor
  · intro x y rest
    refine ⟨?_, ?_, ?_, ?_⟩
    · rw [processStatusLine_hasStaged]; simp [emptyStatus]
    · rw [processStatusLine_hasUnstaged]; simp [emptyStatus]
    · rw [processStatusLine_hasUntracked]; simp [emptyStatus]
    · intro h
      rw [processStatusLine_hasUntracked] at h
      simp [emptyStatus] at h
      rw [processStatusLine_hasStaged, processStatusLine_hasUnstaged]
      simp [emptyStatus, h.1, h.2]
  · refine ⟨?_, ?_, ?_⟩ <;> decide

/-- Witness for `porcelain_classification`: evaluated at the record
`"M? f"` (index modified, worktree untracked-marker). -/
theorem porcelain_classification_witness :
    (processStatusLine emptyStatus ('M' :: '?' :: ' ' :: ['f'])).hasStaged = true
      ∧ (processStatusLine emptyStatus ('M' :: '?' :: ' ' :: ['f'])).hasUntracked = false := by
  have h := porcelain_classification.1 'M' '?' ['f']
  exact ⟨h.1.mpr (by decide), by decide⟩

/-! ## Configuration (internal/config) -/

/-- `config.GitConfig`. -/
structure GitConfig where
  userName : String
  userEmail : String
  editor : String
deriving DecidableEq, Repr

/-- `config.AIConfig`. The `temperature` float is carried as an exact
rational (it is only ever stored and compared, never computed with). -/
structure AIConfig where
  provider : String
  model : String
  apiKey : String
  maxDiffSize : Nat
  temperature : Rat
deriving DecidableEq, Repr

/-- `config.UIConfig`. -/
structure UIConfig where
  theme : String
  showIcons : Bool
  animationMs : Nat
deriving DecidableEq, Repr

/-- `config.GitHubConfig`. -/
structure GitHubConfig where
  defaultVisibility : String
  normalizeAuthor : Bool
deriving DecidableEq, Repr

/-- `config.Config`. -/
structure Config where
  git : GitConfig
  ai : AIConfig
  ui : UIConfig
  github : GitHubConfig
deriving DecidableEq, Repr

/-- `config.DefaultConfig` (part_001 lines 48-72). -/
def DefaultConfig : Config :=
  { git := { userName := "", userEmail := "", editor := "vim" }
  , ai := { provider := "openai", model := "gpt-4o-mini", apiKey := ""
          , maxDiffSize := 4000, temperature := 7/10 }
  , ui := { theme := "charm", showIcons := true, animationMs := 100 }
  , github := { defaultVisibility := "public", normalizeAuthor := false } }

/-- Outcome of `os.ReadFile` + `yaml.Unmarshal` on the config path, seen
from `Load`'s control flow: the file may be absent, unreadable for another
reason, readable but unparsable, or parsed — in which case `parsed c` is
the config after unmarshalling into the defaults. -/
inductive FileRead where
  | missingFile
  | readFailed
  | parseFailed
  | parsed (c : Config)
deriving DecidableEq, Repr

/-- What `config.Load` produced: the config it returned, whether it
attempted to auto-create the file by saving the defaults, and whether it
returned a non-nil error. -/
structure LoadResult where
  cfg : Config
  savedDefault : Bool
  errored : Bool
deriving DecidableEq, Repr

/-- `config.Load` (part_001 lines 84-108). `envOpenAIKey` is the value of
`os.Getenv("OPENAI_API_KEY")` (the empty string when unset). Note the
early returns: in the missing-file and read-error cases `Load` returns the
defaults immediately, before the environment fallback at the bottom. -/
def Load (file : FileRead) (envOpenAIKey : String) : LoadResult :=
  match file with
  | .missingFile => { cfg := DefaultConfig, savedDefault := true, errored := false }
  | .readFailed => { cfg := DefaultConfig, savedDefault := false, errored := false }
  | .parseFailed => { cfg := DefaultConfig, savedDefault := false, errored := true }
  | .parsed c =>
    let c := if c.ai.apiKey = "" then { c with ai := { c.ai with apiKey := envOpenAIKey } } else c
    { cfg := c, savedDefault := false, errored := false }

/-- Claim C8, counterexample: with the config file missing and
`OPENAI_API_KEY` set in the environment, `Load` auto-creates the file but
returns a blank API key — the environment fallback is skipped by the early
return, contradicting the claim that the blank key falls back to the
environment variable in the missing-file case (and likewise in the
unreadable-file case). -/
theorem api_key_fallback_counterexample :
    (Load .missingFile "sk-from-env").cfg.ai.apiKey = ""
    ∧ (Load .readFailed "sk-from-env").cfg.ai.apiKey = ""
    ∧ ("" : String) ≠ "sk-from-env" := by
  refine ⟨rfl, rfl, ?_⟩; decide

/-- Claim C8 as amended: a missing config file is auto-created with the
documented defaults, but the environment fallback for a blank API key runs
only when the file was read and parsed successfully; the missing-file and
unreadable-file paths return the defaults (blank key) without consulting
the environment, and a parse failure returns the defaults with an error. -/
theorem config_load_behaviour :
    (∀ env, Load .missingFile env
        = { cfg := DefaultConfig, savedDefault := true, errored := false })
    ∧ (∀ env, Load .readFailed env
        = { cfg := DefaultConfig, savedDefault := false, errored := false })
    ∧ (∀ env, Load .parseFailed env
        = { cfg := DefaultConfig, savedDefault := false, errored := true })
    ∧ (∀ env c, c.ai.apiKey = "" → (Load (.parsed c) env).cfg
        = { c with ai := { c.ai with apiKey := env } })
    ∧ (∀ env c, c.ai.apiKey ≠ "" → (Load (.parsed c) env).cfg = c) := by
  refine ⟨fun _ => rfl, fun _ => rfl, fun _ => rfl, ?_, ?_⟩
  · intro env c h; simp [Load, h]
  · intro env c h; simp [Load, h]

/-- Witness for `config_load_behaviour`: evaluated at a parsed config with
a blank key and environment key `"sk-w"`. -/
theorem config_load_behaviour_witness :
    (Load (.parsed DefaultConfig) "sk-w").cfg.ai.apiKey = "sk-w" := by
  have h := config_load_behaviour.2.2.2.1 "sk-w" DefaultConfig rfl
  rw [h]

/-! ## Messages and commands (the bubbletea event vocabulary)

`Msg` covers every `tea.Msg` type the program defines, plus the key and
window-size events delivered by the runtime; `Cmd` describes every
`tea.Cmd` the program returns (asynchronous task bodies are named by the
function that would run; `batch2` is `tea.Batch` at its two-argument
uses, nested for longer ones). -/

/-- Direct menu actions executed as asynchronous closures producing an
`actionCompleteMsg` (menu.go 274-351). -/
inductive TaskKind where
  | addAll
  | push
  | pull
  | openRepo
  | branches
deriving DecidableEq, Repr

inductive Msg where
  | key (k : String)
  | winSize (w h : Nat)
  | spinnerTick
  | returnToMenu (message msgType : String)
  | statusArrived (st : Option Status)
  | actionComplete (success : Bool) (message : String)
  | clearMsg
  | commitReady (diff : String)
  | commitNoChanges
  | commitError (e : String)
  | commitGenerated (message : String)
  | commitDone
  | rendererReady
  | resetDone
  | resetError (e : String)
  | rollbackDone
  | rollbackError (e : String)
  | releaseDone
  | releaseError (e : String)
  | publishRepoChecked (branch : String) (hasRemote : Bool)
  | publishError (e : String)
  | publishDone (url : String)
deriving DecidableEq, Repr

inductive Cmd where
  | none
  | emit (m : Msg)
  | quit
  | batch2 (c₁ c₂ : Cmd)
  | tick (seconds : Nat) (m : Msg)
  | spinnerCmd
  | formCmd
  | inputCmd
  | blink
  | listCmd
  | refreshStatus
  | task (t : TaskKind)
  | execProcessLazygit
  | doReset
  | doRollback
  | doRelease
  | doCommit
  | generateMessage
  | checkStatus
  | initRenderer
  | checkRepo
  | pushToRemote
  | doPublish
deriving DecidableEq, Repr

/-! ## Third-party widget state and oracles

The `huh` forms and the `bubbles` text widgets are external collaborators:
their own step functions are taken as oracle parameters. Only the values
the program binds into a form (via `Value(&...)`) and the form's
completion flag are modelled. -/

/-- A `huh` confirm dialog (used by the reset and rollback flows):
`value` is the bool bound through `Value(&m.confirmed)`. -/
structure ConfirmForm where
  completed : Bool
  value : Bool
deriving DecidableEq, Repr

/-- The release flow's `huh` form (tag name, optional message, confirm). -/
structure RelForm where
  completed : Bool
  tagName : String
  message : String
  confirm : Bool
deriving DecidableEq, Repr

/-- The publish flow's `huh` form (name, description, visibility, commit
message, add-tag confirm). -/
structure PubForm where
  completed : Bool
  repoName : String
  description : String
  visibility : String
  commitMsg : String
  addTag : Bool
deriving DecidableEq, Repr

/-- Oracles standing for the third-party components: the three `huh` form
step functions, the text-input character handling, the menu list cursor
handling, and `git.GetRepoName()` (the base name of the working
directory). -/
structure Oracles where
  confirmStep : ConfirmForm → Msg → ConfirmForm × Cmd
  relStep : RelForm → Msg → RelForm × Cmd
  pubStep : PubForm → Msg → PubForm × Cmd
  inputStep : String → Msg → String
  listStep : Nat → Msg → Nat
  repoDirName : String

/-- A git/gh invocation is its argument list; the executor oracle returns
`none` on success and `some errText` on failure (the combined output/error
text the program would surface). -/
abbrev GitExec := List String → Option String

/-! ## Reset flow (src/internal/ui/reset.go lines 14-132) -/

inductive ResetState where
  | confirm
  | working
  | done
  | error
deriving DecidableEq, Repr

/-- `ui.ResetModel` (spinner omitted: display only). -/
structure ResetModel where
  state : ResetState
  form : Option ConfirmForm
  confirmed : Bool
  err : String
deriving Repr

/-- `ui.NewResetModel` (reset.go 33-43): the form is created by `Init`. -/
def NewResetModel : ResetModel :=
  { state := .confirm, form := Option.none, confirmed := false, err := "" }

/-- `ResetModel.Init` (reset.go 45-58): installs the confirm form and
returns its command. -/
def ResetModel.init (m : ResetModel) : ResetModel × Cmd :=
  ({ m with form := some { completed := false, value := false } }, .formCmd)

/-- The form-update tail of `ResetModel.Update` (reset.go 75-95), reached
by fall-through from the message type switch. -/
def ResetModel.formStep (o : Oracles) (m : ResetModel) (msg : Msg) : ResetModel × Cmd :=
  match m.state, m.form with
  | .confirm, some f0 =>
    let (f, c) := o.confirmStep f0 msg
    let m1 := { m with form := some f, confirmed := f.value }
    if f.completed then
      if m1.confirmed then ({ m1 with state := .working }, .doReset)
      else (m1, .emit (.returnToMenu "Reset cancelled" "info"))
    else (m1, c)
  | _, _ => (m, .none)

/-- `ResetModel.Update` (reset.go 60-96). Note that no case handles
`resetDoneMsg` or `resetErrorMsg`: those fall through the type switch and,
outside the `Confirm` state, return `(m, nil)`. -/
def ResetModel.update (o : Oracles) (m : ResetModel) (msg : Msg) : ResetModel × Cmd :=
  match msg with
  | .key k =>
    if k = "ctrl+c" ∨ k = "esc" then (m, .emit (.returnToMenu "" ""))
    else m.formStep o msg
  | .spinnerTick => (m, .spinnerCmd)
  | _ => m.formStep o msg

/-- `ResetModel.doReset` (reset.go 101-106): run `git reset --hard`, map
the outcome to the completion message. -/
def ResetModel.doReset (run : GitExec) : Msg :=
  match run ["reset", "--hard"] with
  | some e => .resetError e
  | Option.none => .resetDone

/-! ## Rollback flow (src/unnamed/part_000) -/

inductive RollbackState where
  | confirm
  | working
  | done
  | error
deriving DecidableEq, Repr

/-- `ui.RollbackModel` (spinner omitted: display only). -/
structure RollbackModel where
  state : RollbackState
  form : Option ConfirmForm
  confirmed : Bool
  err : String
deriving Repr

/-- `ui.NewRollbackModel` (part_000 33-43). -/
def NewRollbackModel : RollbackModel :=
  { state := .confirm, form := Option.none, confirmed := false, err := "" }

/-- `RollbackModel.Init` (part_000 45-58). -/
def RollbackModel.init (m : RollbackModel) : RollbackModel × Cmd :=
  ({ m with form := some { completed := false, value := false } }, .formCmd)

/-- The form-update tail of `RollbackModel.Update` (part_000 86-104). -/
def RollbackModel.formStep (o : Oracles) (m : RollbackModel) (msg : Msg) : RollbackModel × Cmd :=
  match m.state, m.form with
  | .confirm, some f0 =>
    let (f, c) := o.confirmStep f0 msg
    let m1 := { m with form := some f, confirmed := f.value }
    if f.completed then
      if m1.confirmed then ({ m1 with state := .working }, .doRollback)
      else (m1, .emit (.returnToMenu "Rollback cancelled" "info"))
    else (m1, c)
  | _, _ => (m, .none)

/-- `RollbackModel.Update` (part_000 60-107): unlike the reset flow, the
completion messages are handled. -/
def RollbackModel.update (o : Oracles) (m : RollbackModel) (msg : Msg) : RollbackModel × Cmd :=
  match msg with
  | .key k =>
    if k = "ctrl+c" ∨ k = "esc" then (m, .emit (.returnToMenu "" ""))
    else m.formStep o msg
  | .spinnerTick => (m, .spinnerCmd)
  | .rollbackDone =>
    ({ m with state := .done }, .emit (.returnToMenu "Rollback successful" "success"))
  | .rollbackError e => ({ m with state := .error, err := e }, .none)
  | _ => m.formStep o msg

/-- `RollbackModel.doRollback` (part_000 112-117): `git reset --hard HEAD^`. -/
def RollbackModel.doRollback (run : GitExec) : Msg :=
  match run ["reset", "--hard", "HEAD^"] with
  | some e => .rollbackError e
  | Option.none => .rollbackDone

/-! ## Release flow (second part of src/internal/ui/menu.go) -/

inductive ReleaseState where
  | form
  | working
  | done
  | error
deriving DecidableEq, Repr

/-- `ui.ReleaseModel` (spinner omitted: display only). -/
structure ReleaseModel where
  state : ReleaseState
  form : Option RelForm
  tagName : String
  message : String
  confirm : Bool
  err : String
deriving Repr

/-- `ui.NewReleaseModel`. -/
def NewReleaseModel : ReleaseModel :=
  { state := .form, form := Option.none, tagName := "", message := ""
  , confirm := false, err := "" }

/-- `ReleaseModel.Init`: installs the three-field form (tag name with a
non-empty validator, optional message, confirm) and returns
`tea.Batch(spinner.Tick, form.Init())`. -/
def ReleaseModel.init (m : ReleaseModel) : ReleaseModel × Cmd :=
  ({ m with form := some { completed := false, tagName := m.tagName
                         , message := m.message, confirm := m.confirm } },
   .batch2 .spinnerCmd .formCmd)

/-- The form-update tail of `ReleaseModel.Update`. -/
def ReleaseModel.formStep (o : Oracles) (m : ReleaseModel) (msg : Msg) : ReleaseModel × Cmd :=
  match m.state, m.form with
  | .form, some f0 =>
    let (f, c) := o.relStep f0 msg
    let m1 := { m with form := some f, tagName := f.tagName
                     , message := f.message, confirm := f.confirm }
    if f.completed then
      if m1.confirm then ({ m1 with state := .working }, .doRelease)
      else (m1, .emit (.returnToMenu "Release cancelled" "info"))
    else (m1, c)
  | _, _ => (m, .none)

/-- `ReleaseModel.Update`. -/
def ReleaseModel.update (o : Oracles) (m : ReleaseModel) (msg : Msg) : ReleaseModel × Cmd :=
  match msg with
  | .key k =>
    if k = "ctrl+c" ∨ k = "esc" then (m, .emit (.returnToMenu "" ""))
    else m.formStep o msg
  | .spinnerTick => (m, .spinnerCmd)
  | .releaseDone =>
    ({ m with state := .done },
     .emit (.returnToMenu ("Release " ++ m.tagName ++ " created and pushed") "success"))
  | .releaseError e => ({ m with state := .error, err := e }, .none)
  | _ => m.formStep o msg

/-- The argv built by `git.TagAnnotated` (git.go 292-298): a lightweight
tag when the message is empty, an annotated tag otherwise. -/
def tagAnnotatedArgs (name message : String) : List String :=
  if message = "" then ["tag", name] else ["tag", "-a", name, "-m", message]

/-- The argv of `git.PushTags` (git.go 307-310). -/
def pushTagsArgs : List String := ["push", "--tags"]

/-- `ReleaseModel.doRelease`: create the tag, then push all tags; the
result pairs the git invocations actually issued, in order, with the
completion message. Each failure is wrapped with its own prefix
(`failed to create tag:` / `failed to push tags:`). -/
def ReleaseModel.doRelease (run : GitExec) (tagName message : String) :
    List (List String) × Msg :=
  match run (tagAnnotatedArgs tagName message) with
  | some e =>
    ([tagAnnotatedArgs tagName message], .releaseError ("failed to create tag: " ++ e))
  | Option.none =>
    match run pushTagsArgs with
    | some e =>
      ([tagAnnotatedArgs tagName message, pushTagsArgs],
       .releaseError ("failed to push tags: " ++ e))
    | Option.none => ([tagAnnotatedArgs tagName message, pushTagsArgs], .releaseDone)

/-! ## Commit flow (second part of src/internal/ui/reset.go) -/

inductive CommitState where
  | input
  | generating
  | confirm
  | committing
  | done
  | noChanges
  | error
deriving DecidableEq, Repr

/-- `ui.CommitModel`. `titleFocus`/`bodyFocus` model
`textInput.Focused()` / `textArea.Focused()`; the spinner, the glamour
renderer and the rendered message are omitted (display only). -/
structure CommitModel where
  cfg : Config
  useAI : Bool
  state : CommitState
  titleField : String
  bodyField : String
  titleFocus : Bool
  bodyFocus : Bool
  commitMsg : String
  err : String
  diff : String
  ready : Bool
deriving Repr

/-- `ui.NewCommitModel` (title input focused, body blurred). -/
def NewCommitModel (cfg : Config) (useAI : Bool) : CommitModel :=
  { cfg := cfg, useAI := useAI, state := .input, titleField := ""
  , bodyField := "", titleFocus := true, bodyFocus := false
  , commitMsg := "", err := "", diff := "", ready := false }

/-- `CommitModel.Init`: `tea.Batch(spinner.Tick, textinput.Blink,
checkStatusAsync, initRendererCmd)`. -/
def CommitModel.initCmd : Cmd :=
  .batch2 .spinnerCmd (.batch2 .blink (.batch2 .checkStatus .initRenderer))

/-- `CommitModel.checkStatusAsync`: no staged changes short-circuits; the
manual flow needs no diff; the AI flow fetches the staged diff. -/
def CommitModel.checkStatusAsync (useAI : Bool) (hasStagedChanges : Bool)
    (diffResult : Except String String) : Msg :=
  if hasStagedChanges = false then .commitNoChanges
  else if useAI = false then .commitReady ""
  else
    match diffResult with
    | .error e => .commitError e
    | .ok d => .commitReady d

/-- `CommitModel.submitForm` (reset.go commit part, lines 386-401): an
empty trimmed title is rejected (stay in input); otherwise the trimmed
title and trimmed optional body are joined by one blank line. -/
def CommitModel.submitForm (m : CommitModel) : CommitModel × Cmd :=
  let title := goTrimSpaceS m.titleField
  if title = "" then (m, .none)
  else
    let body := goTrimSpaceS m.bodyField
    let msg := if body = "" then title else title ++ "\n\n" ++ body
    ({ m with commitMsg := msg, state := .confirm }, .none)

/-- `CommitModel.handleEnter` (lines 403-417). -/
def CommitModel.handleEnter (m : CommitModel) : CommitModel × Cmd :=
  match m.state with
  | .noChanges => (m, .emit (.returnToMenu "No staged changes to commit" "info"))
  | .error => (m, .emit (.returnToMenu ("Error: " ++ m.err) "error"))
  | _ => (m, .none)

/-- The input-forwarding tail of `CommitModel.Update` (lines 372-383):
while in the input state the focused text widget consumes the message. -/
def CommitModel.textStep (o : Oracles) (m : CommitModel) (msg : Msg) : CommitModel × Cmd :=
  if m.state = .input then
    if m.titleFocus then ({ m with titleField := o.inputStep m.titleField msg }, .inputCmd)
    else ({ m with bodyField := o.inputStep m.bodyField msg }, .inputCmd)
  else (m, .none)

/-- `CommitModel.Update` (lines 270-384). The `e` handler re-populates the
title from `strings.Split(m.commitMsg, "\n")[0]` and, when a `"\n\n"`
occurs, the body from `strings.SplitN(m.commitMsg, "\n\n", 2)[1]`. -/
def CommitModel.update (o : Oracles) (m : CommitModel) (msg : Msg) : CommitModel × Cmd :=
  match msg with
  | .key k =>
    if k = "ctrl+c" ∨ k = "esc" then (m, .emit (.returnToMenu "Cancelled" "info"))
    else if k = "enter" then
      if m.state = .input then m.submitForm else m.handleEnter
    else if k = "alt+enter" then
      if m.state = .input ∧ m.bodyFocus then
        ({ m with bodyField := m.bodyField ++ "\n" }, .none)
      else m.textStep o msg
    else if k = "tab" then
      if m.state = .input ∧ m.useAI = false then
        if m.titleFocus then
          CommitModel.textStep o { m with titleFocus := false, bodyFocus := true } msg
        else CommitModel.textStep o { m with bodyFocus := false, titleFocus := true } msg
      else m.textStep o msg
    else if k = "y" ∨ k = "Y" then
      if m.state = .confirm then ({ m with state := .committing }, .doCommit)
      else m.textStep o msg
    else if k = "n" ∨ k = "N" then
      if m.state = .confirm then (m, .emit (.returnToMenu "Commit cancelled" "info"))
      else m.textStep o msg
    else if k = "e" ∨ k = "E" then
      if m.state = .confirm then
        let m1 := { m with titleField := (⟨goSplitFirst ['\n'] m.commitMsg.data⟩ : String) }
        let m2 :=
          match goSplitN2 ['\n', '\n'] m.commitMsg.data with
          | [_, rest] => { m1 with bodyField := (⟨rest⟩ : String) }
          | _ => m1
        ({ m2 with titleFocus := true, state := .input }, .blink)
      else m.textStep o msg
    else m.textStep o msg
  | .spinnerTick => (m, .spinnerCmd)
  | .commitReady d =>
    let m1 := { m with diff := d, ready := true }
    if m1.useAI then ({ m1 with state := .generating }, .generateMessage)
    else ({ m1 with state := .input }, .blink)
  | .rendererReady => (m, .none)
  | .commitNoChanges => ({ m with state := .noChanges }, .none)
  | .commitGenerated g => ({ m with commitMsg := g, state := .confirm }, .none)
  | .commitError e => ({ m with state := .error, err := e }, .none)
  | .commitDone =>
    ({ m with state := .done }, .emit (.returnToMenu "Commit successful!" "success"))
  | _ => m.textStep o msg

/-- `CommitModel.doCommit`: `git commit -m <msg>`. -/
def CommitModel.doCommit (run : GitExec) (msg : String) : Msg :=
  match run ["commit", "-m", msg] with
  | some e => .commitError e
  | Option.none => .commitDone

/-! ## Publish flow (third part of src/internal/ui/menu.go) -/

inductive PublishState where
  | initial
  | checkRepo
  | form
  | confirm
  | working
  | done
  | error
deriving DecidableEq, Repr

/-- `ui.PublishModel` (spinner and the vestigial step-by-step text inputs
omitted: the update path uses only the `huh` form). -/
structure PublishModel where
  cfg : Config
  state : PublishState
  form : Option PubForm
  repoName : String
  description : String
  visibility : String
  commitMsg : String
  addTag : Bool
  tagName : String
  hasRemote : Bool
  branch : String
  err : String
  repoURL : String
deriving Repr

/-- `ui.NewPublishModel`. -/
def NewPublishModel (cfg : Config) : PublishModel :=
  { cfg := cfg, state := .initial, form := Option.none, repoName := ""
  , description := "", visibility := cfg.github.defaultVisibility
  , commitMsg := "", addTag := false, tagName := "", hasRemote := false
  , branch := "", err := "", repoURL := "" }

/-- `PublishModel.Init`: `tea.Batch(spinner.Tick, checkRepo)`. -/
def PublishModel.initCmd : Cmd := .batch2 .spinnerCmd .checkRepo

/-- `PublishModel.checkRepo`: initialise git when not in a repository,
default the branch to `main`, and report whether `origin` exists. -/
def PublishModel.checkRepo (isRepo : Bool) (initErr : Option String)
    (branch : String) (hasRemote : Bool) : Msg :=
  if isRepo = false ∧ initErr.isSome then
    .publishError ("failed to initialize git: " ++ initErr.getD "")
  else .publishRepoChecked (if branch = "" then "main" else branch) hasRemote

/-- `PublishModel.initForm` state change: the form is installed with the
default repository name (directory base name) and commit message. -/
def PublishModel.installForm (o : Oracles) (m : PublishModel) : PublishModel :=
  let m1 := if m.repoName = "" then { m with repoName := o.repoDirName } else m
  let m2 := if m1.commitMsg = "" then { m1 with commitMsg := "Initial commit" } else m1
  { m2 with form := some { completed := false, repoName := m2.repoName
                         , description := m2.description, visibility := m2.visibility
                         , commitMsg := m2.commitMsg, addTag := m2.addTag } }

/-- `PublishModel.handleEnter`. -/
def PublishModel.handleEnter (m : PublishModel) : PublishModel × Cmd :=
  match m.state with
  | .confirm => ({ m with state := .working }, .doPublish)
  | .error => (m, .emit (.returnToMenu ("Error: " ++ m.err) "error"))
  | .done => (m, .emit (.returnToMenu ("Published to " ++ m.repoURL) "success"))
  | _ => (m, .none)

/-- The form-update tail of `PublishModel.Update`. -/
def PublishModel.formStep (o : Oracles) (m : PublishModel) (msg : Msg) : PublishModel × Cmd :=
  match m.state, m.form with
  | .form, some f0 =>
    let (f, c) := o.pubStep f0 msg
    let m1 := { m with form := some f, repoName := f.repoName
                     , description := f.description, visibility := f.visibility
                     , commitMsg := f.commitMsg, addTag := f.addTag }
    if f.completed then ({ m1 with state := .confirm }, .none)
    else (m1, c)
  | _, _ => (m, .none)

/-- `PublishModel.Update`. -/
def PublishModel.update (o : Oracles) (m : PublishModel) (msg : Msg) : PublishModel × Cmd :=
  match msg with
  | .key k =>
    if k = "ctrl+c" ∨ k = "esc" then (m, .emit (.returnToMenu "" ""))
    else if k = "enter" then
      if m.state ≠ .form then m.handleEnter else m.formStep o msg
    else m.formStep o msg
  | .spinnerTick => (m, .spinnerCmd)
  | .publishRepoChecked branch hasRemote =>
    let m1 := { m with branch := branch, hasRemote := hasRemote }
    if hasRemote then ({ m1 with state := .working }, .pushToRemote)
    else ({ m1.installForm o with state := .form }, .formCmd)
  | .publishError e => ({ m with state := .error, err := e }, .none)
  | .publishDone url =>
    ({ m with state := .done, repoURL := url },
     .emit (.returnToMenu ("Published to " ++ url) "success"))
  | _ => m.formStep o msg

/-! ## Menu controller (first part of src/internal/ui/menu.go) -/

/-- `ui.Action` (menu.go 20-37), constructor names kept verbatim. -/
inductive Action where
  | ActionNone
  | ActionAdd
  | ActionCommit
  | ActionAICommit
  | ActionPush
  | ActionPull
  | ActionReset
  | ActionRollback
  | ActionPublish
  | ActionOpen
  | ActionLazygit
  | ActionBranches
  | ActionQuit
deriving DecidableEq, Repr

/-- `ui.menuItem` (icon glyph omitted: display only). -/
structure MenuItem where
  title : String
  desc : String
  shortcut : String
  action : Action
deriving DecidableEq, Repr

/-- The fixed menu list built by `ui.NewModel` (menu.go 113-125). -/
def menuItems : List MenuItem :=
  [ { title := "Stage All", desc := "git add .", shortcut := "a", action := .ActionAdd }
  , { title := "Commit", desc := "Commit with message", shortcut := "c", action := .ActionCommit }
  , { title := "AI Commit", desc := "Generate commit message with AI", shortcut := "i", action := .ActionAICommit }
  , { title := "Push", desc := "Push to remote", shortcut := "p", action := .ActionPush }
  , { title := "Pull", desc := "Pull from remote", shortcut := "l", action := .ActionPull }
  , { title := "Reset", desc := "Reset changes (hard)", shortcut := "r", action := .ActionReset }
  , { title := "Publish", desc := "Publish to GitHub", shortcut := "u", action := .ActionPublish }
  , { title := "Open Repo", desc := "Open repo in browser", shortcut := "o", action := .ActionOpen }
  , { title := "Lazygit", desc := "Open lazygit", shortcut := "g", action := .ActionLazygit }
  , { title := "Branches", desc := "View branches", shortcut := "b", action := .ActionBranches }
  , { title := "Quit", desc := "Exit gitty", shortcut := "q", action := .ActionQuit } ]

/-- The shortcut-key loop of `Model.Update` (menu.go 219-226): the first
item whose shortcut matches the pressed key. -/
def shortcutAction (k : String) : Option Action :=
  (menuItems.find? (fun it => it.shortcut == k)).map (fun it => it.action)

/-- The active sub-flow stored in `Model.subModel` — one of the five
`tea.Model` implementations the ui package defines. -/
inductive SubModel where
  | reset (m : ResetModel)
  | rollback (m : RollbackModel)
  | commit (m : CommitModel)
  | publish (m : PublishModel)
  | release (m : ReleaseModel)
deriving Repr

def SubModel.isRollback : SubModel → Bool
  | .rollback _ => true
  | _ => false

def SubModel.isRelease : SubModel → Bool
  | .release _ => true
  | _ => false

/-- Dispatch `m.subModel.Update(msg)` over the five concrete models. -/
def SubModel.update (o : Oracles) : SubModel → Msg → SubModel × Cmd
  | .reset rm, msg => let (r, c) := ResetModel.update o rm msg; (.reset r, c)
  | .rollback rm, msg => let (r, c) := RollbackModel.update o rm msg; (.rollback r, c)
  | .commit cm, msg => let (r, c) := CommitModel.update o cm msg; (.commit r, c)
  | .publish pm, msg => let (r, c) := PublishModel.update o pm msg; (.publish r, c)
  | .release rm, msg => let (r, c) := ReleaseModel.update o rm msg; (.release r, c)

/-- `ui.Model` (menu.go 89-105); the bubbles list is modelled by its
cursor position `selected`, the spinner is omitted (display only). -/
structure MenuModel where
  selected : Nat
  cfg : Config
  status : Option Status
  loading : Bool
  message : String
  msgType : String
  width : Nat
  height : Nat
  quitting : Bool
  subModel : Option SubModel
  inSubView : Bool
deriving Repr

/-- `ui.NewModel` (menu.go 108-151). -/
def NewModel (cfg : Config) : MenuModel :=
  { selected := 0, cfg := cfg, status := Option.none, loading := false
  , message := "", msgType := "", width := 80, height := 24
  , quitting := false, subModel := Option.none, inSubView := false }

/-- `clearMessageAfter` (menu.go 262-266): a 3-second tick delivering an
untagged `clearMsgMsg{}`. -/
def clearMessageAfter : Cmd := .tick 3 .clearMsg

/-- The bottom `m.list.Update(msg)` call reached by fall-through. -/
def MenuModel.listUpdate (o : Oracles) (m : MenuModel) (msg : Msg) : MenuModel × Cmd :=
  ({ m with selected := o.listStep m.selected msg }, .listCmd)

/-- `Model.executeAction` (menu.go 268-355). `ActionNone` and
`ActionRollback` have no case and fall to the final `return m, nil`; no
case constructs a `RollbackModel` or a `ReleaseModel`. -/
def MenuModel.executeAction (m : MenuModel) (a : Action) : MenuModel × Cmd :=
  match a with
  | .ActionQuit => ({ m with quitting := true }, .quit)
  | .ActionAdd => ({ m with loading := true }, .task .addAll)
  | .ActionPush => ({ m with loading := true }, .task .push)
  | .ActionPull => ({ m with loading := true }, .task .pull)
  | .ActionReset =>
    let (rm, c) := NewResetModel.init
    ({ m with inSubView := true, subModel := some (.reset rm) }, c)
  | .ActionCommit =>
    ({ m with inSubView := true, subModel := some (.commit (NewCommitModel m.cfg false)) },
     CommitModel.initCmd)
  | .ActionAICommit =>
    ({ m with inSubView := true, subModel := some (.commit (NewCommitModel m.cfg true)) },
     CommitModel.initCmd)
  | .ActionPublish =>
    ({ m with inSubView := true, subModel := some (.publish (NewPublishModel m.cfg)) },
     PublishModel.initCmd)
  | .ActionOpen => ({ m with loading := true }, .task .openRepo)
  | .ActionLazygit => (m, .execProcessLazygit)
  | .ActionBranches => ({ m with loading := true }, .task .branches)
  | _ => (m, .none)

/-- `Model.Update` (menu.go 183-260). While a sub-flow is active it
receives every message first; a `ReturnToMenuMsg` then dissolves the
sub-flow, adopts a non-empty message, and schedules refresh + expiry.
Outside a sub-flow: keys are dropped while loading, quit keys quit,
enter/space runs the selected item, shortcuts run their item; completion,
status and clear messages update the fields shown. -/
def MenuModel.update (o : Oracles) (m : MenuModel) (msg : Msg) : MenuModel × Cmd :=
  match m.inSubView, m.subModel with
  | true, some sub =>
    let (sub1, cmd) := SubModel.update o sub msg
    match msg with
    | .returnToMenu message msgType =>
      let m1 := { m with inSubView := false, subModel := Option.none }
      let m2 := if message ≠ "" then { m1 with message := message, msgType := msgType } else m1
      (m2, .batch2 .refreshStatus clearMessageAfter)
    | _ => ({ m with subModel := some sub1 }, cmd)
  | _, _ =>
    match msg with
    | .key k =>
      if m.loading then (m, .none)
      else if k = "q" ∨ k = "ctrl+c" then ({ m with quitting := true }, .quit)
      else if k = "enter" ∨ k = " " then
        match menuItems.get? m.selected with
        | some it => m.executeAction it.action
        | Option.none => m.listUpdate o msg
      else
        match shortcutAction k with
        | some a => m.executeAction a
        | Option.none => m.listUpdate o msg
    | .winSize w h => MenuModel.listUpdate o { m with width := w, height := h } msg
    | .spinnerTick => (m, .spinnerCmd)
    | .statusArrived st => MenuModel.listUpdate o { m with status := st, loading := false } msg
    | .actionComplete ok message =>
      ({ m with loading := false, message := message
              , msgType := if ok then "success" else "error" },
       .batch2 .refreshStatus clearMessageAfter)
    | .clearMsg => MenuModel.listUpdate o { m with message := "", msgType := "" } msg
    | _ => m.listUpdate o msg

/-! ## A timed event loop

The single-threaded bubbletea runtime delivers messages one at a time;
`tea.Tick(d, f)` delivers `f` after `d`. `runLoop` executes the menu model
against a time-ordered queue of pending deliveries, entering the tick
commands the update returns back into the queue (other commands are
external effects and deliver no further message here). The fuel counts
processed deliveries. -/

def Cmd.ticks : Cmd → List (Nat × Msg)
  | .tick s msg => [(s, msg)]
  | .batch2 a b => a.ticks ++ b.ticks
  | _ => []

/-- Insert into a time-sorted queue, after existing entries of the same
time (a timer scheduled later never fires before one already pending). -/
def insertByTime (e : Nat × Msg) : List (Nat × Msg) → List (Nat × Msg)
  | [] => [e]
  | x :: xs => if x.1 ≤ e.1 then x :: insertByTime e xs else e :: x :: xs

def runLoop (o : Oracles) : Nat → MenuModel → List (Nat × Msg) → MenuModel
  | 0, m, _ => m
  | _ + 1, m, [] => m
  | fuel + 1, m, (t, e) :: rest =>
    let (m1, cmd) := MenuModel.update o m e
    runLoop o fuel m1
      ((cmd.ticks.map (fun p => (t + p.1, p.2))).foldl (fun q ev => insertByTime ev q) rest)

/-- Inert oracles for concrete evaluations: forms and widgets keep their
state, the list cursor stays put. -/
def oracles0 : Oracles :=
  { confirmStep := fun f _ => (f, Cmd.none)
  , relStep := fun f _ => (f, Cmd.none)
  , pubStep := fun f _ => (f, Cmd.none)
  , inputStep := fun s _ => s
  , listStep := fun i _ => i
  , repoDirName := "repo" }

/-! ## Claim C1: reset completion handling -/

/-- Claim C1 (refuted — the code drops the completion): `doReset` does
complete with `resetDoneMsg` on success, but `ResetModel.Update` has no
case for `resetDoneMsg`/`resetErrorMsg`; in the `Working` state both fall
through the type switch and past the `Confirm`-guarded form block, so the
model stays in `Working` and returns no command — no `ReturnToMenuMsg` is
ever emitted and `Done`/`Error` are unreachable. -/
theorem reset_completion_dropped (o : Oracles) (run : GitExec) (m : ResetModel)
    (h : m.state = ResetState.working)
    (hrun : run ["reset", "--hard"] = Option.none) :
    ResetModel.doReset run = Msg.resetDone
    ∧ ResetModel.update o m .resetDone = (m, Cmd.none)
    ∧ ResetModel.update o m (.resetError "fatal: reset failed") = (m, Cmd.none) := by
  rcases m with ⟨st, fo, cf, er⟩
  simp only at h
  subst h
  refine ⟨?_, ?_, ?_⟩
  · unfold ResetModel.doReset
    rw [hrun]
  · cases fo <;> rfl
  · cases fo <;> rfl

/-- Witness for `reset_completion_dropped`: the working-state model with a
succeeding executor. -/
theorem reset_completion_dropped_witness :
    ResetModel.update oracles0
        { state := .working, form := Option.none, confirmed := true, err := "" }
        .resetDone
      = ({ state := .working, form := Option.none, confirmed := true, err := "" }, Cmd.none) :=
  (reset_completion_dropped oracles0 (fun _ => Option.none)
    { state := .working, form := Option.none, confirmed := true, err := "" } rfl rfl).2.1

/-! ## Claim C2: cancel-key messages -/

/-- Claim C2, counterexample: the messages are the reverse of the claim.
The cancel key in the reset flow emits an *empty* return message (which
the menu does not surface), not "Reset cancelled"; a plain escape from the
commit flow emits a "Cancelled" info message, not a silent cancel. -/
theorem cancel_messages_counterexample :
    (ResetModel.update oracles0
        { state := .confirm, form := some { completed := false, value := false }
        , confirmed := false, err := "" } (.key "esc")).2
      = Cmd.emit (.returnToMenu "" "")
    ∧ (CommitModel.update oracles0 (NewCommitModel DefaultConfig false) (.key "esc")).2
      = Cmd.emit (.returnToMenu "Cancelled" "info")
    ∧ ("" : String) ≠ "Reset cancelled"
    ∧ ("Cancelled" : String) ≠ ""
    ∧ (MenuModel.update oracles0
        { NewModel DefaultConfig with
            inSubView := true
            subModel := some (.reset NewResetModel)
            message := "prior" }
        (.returnToMenu "" "")).1.message = "prior" := by
  refine ⟨rfl, rfl, by decide, by decide, rfl⟩

/-- Claim C2 as amended: the cancel key (escape or ctrl+c) at any
pre-`Working` state returns immediately to the menu, but the reset,
rollback, release and publish flows cancel *silently* (empty message — the
menu surfaces nothing), while the commit flow surfaces a "Cancelled" info
message; the "X cancelled" info messages arise only from declining the
confirmation form, not from the cancel key. -/
theorem cancel_key_behaviour (o : Oracles) (k : String)
    (hk : k = "esc" ∨ k = "ctrl+c") :
    (∀ m : ResetModel, m.state = .confirm →
      ResetModel.update o m (.key k) = (m, .emit (.returnToMenu "" "")))
    ∧ (∀ m : RollbackModel, m.state = .confirm →
      RollbackModel.update o m (.key k) = (m, .emit (.returnToMenu "" "")))
    ∧ (∀ m : ReleaseModel, m.state = .form →
      ReleaseModel.update o m (.key k) = (m, .emit (.returnToMenu "" "")))
    ∧ (∀ m : PublishModel, m.state ≠ .working →
      PublishModel.update o m (.key k) = (m, .emit (.returnToMenu "" "")))
    ∧ (∀ m : CommitModel, m.state ≠ .committing →
      CommitModel.update o m (.key k) = (m, .emit (.returnToMenu "Cancelled" "info")))
    ∧ (∀ (mm : MenuModel) (sub : SubModel),
      mm.inSubView = true → mm.subModel = some sub →
      (MenuModel.update o mm (.returnToMenu "" "")).1.message = mm.message
      ∧ (MenuModel.update o mm (.returnToMenu "Cancelled" "info")).1.message = "Cancelled") := by
  refine ⟨?_, ?_, ?_, ?_, ?_, ?_⟩
  · intro m _
    rcases hk with hk | hk <;> subst hk <;> simp [ResetModel.update]
  · intro m _
    rcases hk with hk | hk <;> subst hk <;> simp [RollbackModel.update]
  · intro m _
    rcases hk with hk | hk <;> subst hk <;> simp [ReleaseModel.update]
  · intro m _
    rcases hk with hk | hk <;> subst hk <;> simp [PublishModel.update]
  · intro m _
    rcases hk with hk | hk <;> subst hk <;> simp [CommitModel.update]
  · intro mm sub h1 h2
    rcases mm with ⟨sel, cfg, st, ld, ms, mt, w, hh, q, subM, inS⟩
    simp only at h1 h2
    subst h1
    subst h2
    exact ⟨rfl, rfl⟩

/-- Witness for `cancel_key_behaviour`: escape pressed in the fresh reset
confirm state and in the fresh manual commit input state. -/
theorem cancel_key_behaviour_witness :
    ResetModel.update oracles0 NewResetModel (.key "esc")
      = (NewResetModel, .emit (.returnToMenu "" ""))
    ∧ CommitModel.update oracles0 (NewCommitModel DefaultConfig false) (.key "esc")
      = (NewCommitModel DefaultConfig false, .emit (.returnToMenu "Cancelled" "info")) := by
  refine ⟨(cancel_key_behaviour oracles0 "esc" (Or.inl rfl)).1 NewResetModel rfl, ?_⟩
  exact (cancel_key_behaviour oracles0 "esc" (Or.inl rfl)).2.2.2.2.1
    (NewCommitModel DefaultConfig false) (by decide)

/-! ## Claim C4: quit-key routing -/

/-- Claim C4, counterexample: while a direct action is in flight
(`loading`), key input is dropped before the quit check — pressing `q`
neither quits nor does anything else, although no sub-flow is active. -/
theorem quit_ignored_while_loading :
    (MenuModel.update oracles0 { NewModel DefaultConfig with loading := true }
        (.key "q")).1.quitting = false
    ∧ (MenuModel.update oracles0 { NewModel DefaultConfig with loading := true }
        (.key "q")).2 = Cmd.none
    ∧ ({ NewModel DefaultConfig with loading := true } : MenuModel).inSubView = false := by
  exact ⟨rfl, rfl, rfl⟩

/-- Claim C4 as amended: outside a sub-flow the quit key (`q` or ctrl+c)
quits whenever no direct action is in flight; while `loading` every key —
the quit key included — is ignored. -/
theorem quit_key_routing (o : Oracles) (m : MenuModel) (k : String)
    (hsub : m.inSubView = false ∨ m.subModel = Option.none)
    (hk : k = "q" ∨ k = "ctrl+c") :
    (m.loading = false →
      MenuModel.update o m (.key k) = ({ m with quitting := true }, Cmd.quit))
    ∧ (m.loading = true → MenuModel.update o m (.key k) = (m, Cmd.none)) := by
  rcases m with ⟨sel, cfg, st, ld, ms, mt, w, hh, q, subM, inS⟩
  simp only at hsub
  constructor
  · intro hld
    simp only at hld
    subst hld
    cases inS with
    | false =>
      cases subM <;>
        (rcases hk with hk | hk <;> subst hk <;> simp [MenuModel.update])
    | true =>
      rcases hsub with hsub | hsub
      · exact absurd hsub (by simp)
      · subst hsub
        rcases hk with hk | hk <;> subst hk <;> simp [MenuModel.update]
  · intro hld
    simp only at hld
    subst hld
    cases inS with
    | false => cases subM <;> (cases hk with | _ hk => subst hk; rfl)
    | true =>
      rcases hsub with hsub | hsub
      · exact absurd hsub (by simp)
      · subst hsub
        cases hk with | _ hk => subst hk; rfl

/-- Witness for `quit_key_routing`: `q` on the fresh idle menu quits. -/
theorem quit_key_routing_witness :
    MenuModel.update oracles0 (NewModel DefaultConfig) (.key "q")
      = ({ NewModel DefaultConfig with quitting := true }, Cmd.quit) :=
  (quit_key_routing oracles0 (NewModel DefaultConfig) "q" (Or.inl rfl) (Or.inl rfl)).1 rfl

/-! ## Claim C10: rollback and release are unreachable from the menu -/

/-- Claim C10: no menu item carries `ActionRollback` (and no action value
for the release flow even exists), no shortcut key resolves to it, and
`executeAction` either leaves the stored sub-model unchanged or installs a
reset, commit or publish model — never a `RollbackModel` or a
`ReleaseModel`. -/
theorem rollback_release_unreachable :
    (∀ it ∈ menuItems, it.action ≠ Action.ActionRollback)
    ∧ (∀ (k : String) (a : Action), shortcutAction k = some a → a ≠ Action.ActionRollback)
    ∧ (∀ (m : MenuModel) (a : Action),
        (m.executeAction a).1.subModel = m.subModel
        ∨ ∃ s, (m.executeAction a).1.subModel = some s
            ∧ s.isRollback = false ∧ s.isRelease = false) := by
  have hitems : ∀ it ∈ menuItems, it.action ≠ Action.ActionRollback := by decide
  refine ⟨hitems, ?_, ?_⟩
  · intro k a h
    unfold shortcutAction at h
    cases hfind : menuItems.find? (fun it => it.shortcut == k) with
    | none => rw [hfind] at h; simp at h
    | some it =>
      rw [hfind] at h
      simp only [Option.map_some', Option.some.injEq] at h
      have hm := List.mem_of_find?_eq_some hfind
      rw [← h]
      exact hitems it hm
  · intro m a
    cases a with
    | ActionReset => exact Or.inr ⟨_, rfl, rfl, rfl⟩
    | ActionCommit => exact Or.inr ⟨_, rfl, rfl, rfl⟩
    | ActionAICommit => exact Or.inr ⟨_, rfl, rfl, rfl⟩
    | ActionPublish => exact Or.inr ⟨_, rfl, rfl, rfl⟩
    | _ => exact Or.inl rfl

/-- Witness for `rollback_release_unreachable`: the `r` shortcut resolves
to the reset action, which is not the rollback action. -/
theorem rollback_release_unreachable_witness :
    Action.ActionReset ≠ Action.ActionRollback :=
  rollback_release_unreachable.2.1 "r" Action.ActionReset (by rfl)

/-! ## Claim C3: status-message expiry -/

/-- Claim C3, counterexample: `clearMsgMsg{}` carries no generation or
timestamp, so the 3-second timer scheduled by an earlier message erases a
later one. Trace: a completion message arrives at t=0 (its clear timer
fires at t=3), a second completion arrives at t=2 (its own timer would
fire at t=5). After two deliveries (t=2) the second message is displayed;
after the third delivery — the *first* message's timer at t=3, two
seconds into the second message's life — the message is already cleared. -/
theorem stale_clear_erases_newer_message :
    (runLoop oracles0 2 (NewModel DefaultConfig)
        [(0, .actionComplete true "All files staged"),
         (2, .actionComplete true "Pushed to remote")]).message
      = "Pushed to remote"
    ∧ (runLoop oracles0 3 (NewModel DefaultConfig)
        [(0, .actionComplete true "All files staged"),
         (2, .actionComplete true "Pushed to remote")]).message
      = ""
    ∧ ("" : String) ≠ "Pushed to remote"
    ∧ (2 + 3 : Nat) > 3 := by
  exact ⟨rfl, rfl, by decide, by decide⟩

/-- Claim C3 as amended: every message-setting transition schedules an
expiry tick of 3 seconds, and after those 3 seconds with no interfering
timer the message is cleared; but the clear message is untagged and clears
whatever message is current, so a pending clear from an earlier message
does erase a later one (as the counterexample trace shows). -/
theorem message_expiry_behaviour (o : Oracles) (m : MenuModel) (ok : Bool) (s : String)
    (hsub : m.inSubView = false) :
    ((MenuModel.update o m (.actionComplete ok s)).2
        = .batch2 .refreshStatus (.tick 3 .clearMsg)
      ∧ (MenuModel.update o m (.actionComplete ok s)).1.message = s)
    ∧ ((MenuModel.update o m .clearMsg).1.message = ""
      ∧ (MenuModel.update o m .clearMsg).1.msgType = "")
    ∧ clearMessageAfter = .tick 3 .clearMsg
    ∧ (runLoop oracles0 2 (NewModel DefaultConfig)
        [(0, .actionComplete true "All files staged")]).message = "" := by
  rcases m with ⟨sel, cfg, st, ld, ms, mt, w, hh, q, subM, inS⟩
  simp only at hsub
  subst hsub
  exact ⟨⟨rfl, rfl⟩, ⟨rfl, rfl⟩, rfl, rfl⟩

/-- Witness for `message_expiry_behaviour`: the fresh idle menu. -/
theorem message_expiry_behaviour_witness :
    (MenuModel.update oracles0 (NewModel DefaultConfig)
        (.actionComplete true "Pulled from remote")).1.message = "Pulled from remote" :=
  (message_expiry_behaviour oracles0 (NewModel DefaultConfig) true
    "Pulled from remote" rfl).1.2

/-! ## Claim C7: release tagging and pushing -/

lemma wrapped_errors_distinct (e₁ e₂ : String) :
    ("failed to create tag: " ++ e₁ : String) ≠ "failed to push tags: " ++ e₂ := by
  intro h
  have hd := congrArg String.data h
  rw [string_data_append, string_data_append] at hd
  have h10 := congrArg (fun l => l.getD 10 ' ') hd
  have hb1 : (10 : Nat) < ("failed to create tag: ".data).length := by decide
  have hb2 : (10 : Nat) < ("failed to push tags: ".data).length := by decide
  simp only [List.getD_append _ _ _ _ hb1, List.getD_append _ _ _ _ hb2] at h10
  exact absurd h10 (by decide)

/-- Claim C7: on confirm the release flow creates an annotated tag when a
message was given (a lightweight tag otherwise) and then pushes all tags;
when tag creation fails the push is never issued, and the two failure
modes carry distinct error prefixes, so a tag-creation failure is always
distinguishable from a tag-push failure. -/
theorem release_tag_then_push (run : GitExec) (name msg : String) :
    ((msg = "" → tagAnnotatedArgs name msg = ["tag", name])
      ∧ (msg ≠ "" → tagAnnotatedArgs name msg = ["tag", "-a", name, "-m", msg]))
    ∧ (∀ e, run (tagAnnotatedArgs name msg) = some e →
        ReleaseModel.doRelease run name msg
          = ([tagAnnotatedArgs name msg], .releaseError ("failed to create tag: " ++ e))
        ∧ pushTagsArgs ∉ (ReleaseModel.doRelease run name msg).1)
    ∧ (run (tagAnnotatedArgs name msg) = Option.none →
        (ReleaseModel.doRelease run name msg).1
          = [tagAnnotatedArgs name msg, pushTagsArgs]
        ∧ (∀ e, run pushTagsArgs = some e →
            (ReleaseModel.doRelease run name msg).2
              = .releaseError ("failed to push tags: " ++ e))
        ∧ (run pushTagsArgs = Option.none →
            (ReleaseModel.doRelease run name msg).2 = .releaseDone))
    ∧ (∀ e₁ e₂, ("failed to create tag: " ++ e₁ : String) ≠ "failed to push tags: " ++ e₂) := by
  refine ⟨⟨?_, ?_⟩, ?_, ?_, fun e₁ e₂ => wrapped_errors_distinct e₁ e₂⟩
  · intro h; simp [tagAnnotatedArgs, h]
  · intro h; simp [tagAnnotatedArgs, h]
  · intro e he
    constructor
    · unfold ReleaseModel.doRelease
      rw [he]
    · unfold ReleaseModel.doRelease
      rw [he]
      intro hmem
      have : pushTagsArgs = tagAnnotatedArgs name msg := by
        simpa using hmem
      unfold tagAnnotatedArgs pushTagsArgs at this
      by_cases hmsg : msg = "" <;> simp [hmsg] at this
  · intro he
    refine ⟨?_, ?_, ?_⟩
    · unfold ReleaseModel.doRelease
      rw [he]
      cases run pushTagsArgs <;> rfl
    · intro e hp
      unfold ReleaseModel.doRelease
      rw [he, hp]
    · intro hp
      unfold ReleaseModel.doRelease
      rw [he, hp]

/-- Witness for `release_tag_then_push`: an executor for which creating
tag `v1` fails; the push is not in the issued-command trace and the
surfaced error carries the tag-creation prefix. -/
theorem release_tag_then_push_witness :
    ReleaseModel.doRelease
        (fun args => if args = ["tag", "v1"] then some "tag already exists" else Option.none)
        "v1" ""
      = ([tagAnnotatedArgs "v1" ""],
         .releaseError ("failed to create tag: " ++ "tag already exists"))
    ∧ pushTagsArgs ∉ (ReleaseModel.doRelease
        (fun args => if args = ["tag", "v1"] then some "tag already exists" else Option.none)
        "v1" "").1 :=
  (release_tag_then_push
    (fun args => if args = ["tag", "v1"] then some "tag already exists" else Option.none)
    "v1" "").2.1 "tag already exists" (by rfl)

/-! ## Claim C9: manual commit message composition -/

/-- Claim C9: `submitForm` rejects an empty (trimmed) title; otherwise it
joins the trimmed title and trimmed optional body with exactly one blank
line — the trimmed parts never begin or end in a newline, so no extra
blank lines appear and an empty body leaves no trailing blank line.
Concretely, title `"fix bug"` with body `"- detail"` composes exactly
`"fix bug\n\n- detail"`, and with an empty body exactly `"fix bug"`. -/
theorem commit_message_composition :
    ((CommitModel.submitForm
        { NewCommitModel DefaultConfig false with
            titleField := "fix bug"
            bodyField := "- detail" }).1.commitMsg = "fix bug\n\n- detail")
    ∧ ((CommitModel.submitForm
        { NewCommitModel DefaultConfig false with
            titleField := "fix bug" }).1.commitMsg = "fix bug")
    ∧ (∀ m : CommitModel, goTrimSpaceS m.titleField = "" →
        CommitModel.submitForm m = (m, Cmd.none))
    ∧ (∀ m : CommitModel, goTrimSpaceS m.titleField ≠ "" →
        (m.submitForm).1.state = CommitState.confirm
        ∧ (goTrimSpaceS m.bodyField = "" →
            (m.submitForm).1.commitMsg = goTrimSpaceS m.titleField
            ∧ ((m.submitForm).1.commitMsg.data.getLast? = some '\n' → False))
        ∧ (goTrimSpaceS m.bodyField ≠ "" →
            (m.submitForm).1.commitMsg.data
              = (goTrimSpaceS m.titleField).data ++ '\n' :: '\n' :: (goTrimSpaceS m.bodyField).data
            ∧ ((goTrimSpaceS m.titleField).data.getLast? = some '\n' → False)
            ∧ ((goTrimSpaceS m.bodyField).data.head? = some '\n' → False))) := by
  refine ⟨rfl, rfl, ?_, ?_⟩
  · intro m h
    unfold CommitModel.submitForm
    rw [if_pos h]
  · intro m h
    refine ⟨?_, ?_, ?_⟩
    · unfold CommitModel.submitForm
      rw [if_neg h]
    · intro hb
      constructor
      · unfold CommitModel.submitForm
        rw [if_neg h]
        simp [hb]
      · intro hl
        unfold CommitModel.submitForm at hl
        rw [if_neg h] at hl
        simp only [hb, if_pos] at hl
        have : goIsSpace '\n' = false :=
          goTrimSpace_getLast?_not_space m.titleField.data '\n' (by
            simpa [goTrimSpaceS] using hl)
        exact absurd this (by decide)
    · intro hb
      refine ⟨?_, ?_, ?_⟩
      · unfold CommitModel.submitForm
        rw [if_neg h]
        simp only [hb]
        rw [if_neg not_false, string_data_append, string_data_append]
        have hnn : ("\n\n" : String).data = ['\n', '\n'] := rfl
        simp [hnn]
      · intro hl
        have : goIsSpace '\n' = false :=
          goTrimSpace_getLast?_not_space m.titleField.data '\n' (by
            simpa [goTrimSpaceS] using hl)
        exact absurd this (by decide)
      · intro hl
        have : goIsSpace '\n' = false :=
          goTrimSpace_head?_not_space m.bodyField.data '\n' (by
            simpa [goTrimSpaceS] using hl)
        exact absurd this (by decide)

/-- Witness for `commit_message_composition`: a whitespace-only title is
rejected (the model is returned unchanged with no command). -/
theorem commit_message_composition_witness :
    CommitModel.submitForm
        { NewCommitModel DefaultConfig false with titleField := "   " }
      = ({ NewCommitModel DefaultConfig false with titleField := "   " }, Cmd.none) :=
  commit_message_composition.2.2.1
    { NewCommitModel DefaultConfig false with titleField := "   " } (by decide)

/-! ## Claim C6: edit action re-population -/

/-- Claim C6, counterexample: the `e` handler takes the title from
`strings.Split(msg, "\n")[0]` — the first *line* — not from everything
before the first `"\n\n"`. On the AI-composed message `"a\nb\n\nc"` the
part before the first blank line is `"a\nb"`, but the title field
receives `"a"`. -/
theorem edit_split_counterexample :
    (CommitModel.update oracles0
        { NewCommitModel DefaultConfig true with
            state := .confirm
            commitMsg := "a\nb\n\nc" }
        (.key "e")).1.titleField = "a"
    ∧ (goSplitN2 ['\n', '\n'] ("a\nb\n\nc" : String).data).headD []
        = ("a\nb" : String).data
    ∧ ("a" : String) ≠ "a\nb" := by
  exact ⟨rfl, rfl, by decide⟩

/-- Claim C6 as amended: from the confirmation step, `e` re-populates the
title field with the first line of the composed message (everything
before the first `"\n"`) and the body field with everything after the
first `"\n\n"` (leaving it unchanged when there is none), returning to the
input state. For every message whose part before the first blank line is a
single line — every manually composed message in particular — this
coincides with splitting on the first blank-line boundary, so
`"fix bug\n\n- detail"` recovers title `"fix bug"` and body `"- detail"`. -/
theorem edit_repopulation (o : Oracles) (m : CommitModel) (t b : String)
    (hstate : m.state = CommitState.confirm)
    (hmsg : m.commitMsg = t ++ "\n\n" ++ b)
    (ht : '\n' ∉ t.data) :
    (CommitModel.update o m (.key "e")).1.titleField = t
    ∧ (CommitModel.update o m (.key "e")).1.bodyField = b
    ∧ (CommitModel.update o m (.key "e")).1.state = CommitState.input := by
  have hdata : m.commitMsg.data = t.data ++ '\n' :: '\n' :: b.data := by
    rw [hmsg, string_data_append, string_data_append]
    simp
  have h1 : goSplitFirst ['\n'] m.commitMsg.data = t.data := by
    rw [hdata]
    exact goSplitFirst_compose t.data b.data ht
  have h2 : goSplitN2 ['\n', '\n'] m.commitMsg.data = [t.data, b.data] := by
    rw [hdata]
    exact goSplitN2_compose t.data b.data ht
  simp [CommitModel.update, hstate, h1, h2]

/-- Witness for `edit_repopulation`: the round trip on the composed
message `"fix bug\n\n- detail"`. -/
theorem edit_repopulation_witness :
    (CommitModel.update oracles0
        { NewCommitModel DefaultConfig false with
            state := .confirm
            commitMsg := "fix bug\n\n- detail" }
        (.key "e")).1.titleField = "fix bug"
    ∧ (CommitModel.update oracles0
        { NewCommitModel DefaultConfig false with
            state := .confirm
            commitMsg := "fix bug\n\n- detail" }
        (.key "e")).1.bodyField = "- detail" := by
  have h := edit_repopulation oracles0
    { NewCommitModel DefaultConfig false with
        state := .confirm
        commitMsg := "fix bug\n\n- detail" }
    "fix bug" "- detail" rfl (by decide) (by decide)
  exact ⟨h.1, h.2.1⟩

end Gitty
